import Mathlib

set_option maxRecDepth 16384

/-!
# Verification of the GEO audit analyzer (`src/analyzer.py`, `src/utils.py`, `src/reporter.py`)

This file is a shallow embedding of the heuristic scoring engine of the
`geo_audit` repository, together with proofs about the claims of its
specification.

Modelling conventions:

* Python strings are Lean `String`s (both count code points for `len`).
* Python's `re` whitespace class `\s` / `str.strip` / `str.split()` are
  modelled by `pyIsSpace`, `pyStrip`, `pySplitWs`; `str.lower` by `pyLower`
  (covering ASCII, Latin-1 and Latin Extended-A, the repertoire used by the
  program's fixed Slovak phrase lists); the substring operator `in` by `pyIn`.
* The HTML documents handled by BeautifulSoup's `html.parser` tree builder
  are modelled by the mutual inductive `HNode`/`HNodes`; `parseHtml` models
  tree construction for the element/attribute/text fragment repertoire the
  program is exercised on (including raw-text `script`/`style` content);
  character references and malformed-markup recovery are out of scope.
* Stateful accumulation on the `Article` instance (`self.score`,
  `self.points`, `self.recommendations`) is explicit state passing over
  `AState`; `warnings.warn` emissions are modelled as an extra `warnings`
  component of that state, visible to the caller.
* Fallible Python code is `Except String`: a check that raises is a check
  returning `.error`; dictionary subscripting of a missing key in
  `Article.__init__` is an `.error` of `mkArticle`.
-/

/-- Model of Python's unicode whitespace (`str.isspace`, `\s`, `str.strip`,
`str.split()` defaults) restricted to the characters that can actually occur
in the program's data; covers ASCII whitespace, the C1 controls Python
treats as space, NBSP and the Unicode space separators. -/
def pyIsSpace (c : Char) : Bool :=
  c == ' ' || c == '\t' || c == '\n' || c == '\r' ||
  c.val == 0x0b || c.val == 0x0c ||
  (0x1c ≤ c.val && c.val ≤ 0x1f) || c.val == 0x85 || c.val == 0xa0 ||
  c.val == 0x1680 || (0x2000 ≤ c.val && c.val ≤ 0x200a) ||
  c.val == 0x2028 || c.val == 0x2029 || c.val == 0x202f ||
  c.val == 0x205f || c.val == 0x3000

/-- Model of Python's `str.lower` on a single character, for the Basic Latin,
Latin-1 Supplement and Latin Extended-A blocks (the repertoire of the fixed
phrase lists: `č`, `š`, `ť`, `ú`, `á`, ...). Other characters map to
themselves. -/
def pyLowerChar (c : Char) : Char :=
  if 'A' ≤ c && c ≤ 'Z' then Char.ofNat (c.toNat + 32)
  else if 0xc0 ≤ c.val && c.val ≤ 0xde && c.val != 0xd7 then Char.ofNat (c.toNat + 32)
  else if 0x100 ≤ c.val && c.val ≤ 0x177 && c.val % 2 == 0 then Char.ofNat (c.toNat + 1)
  else if c.val == 0x179 || c.val == 0x17b || c.val == 0x17d then Char.ofNat (c.toNat + 1)
  else c

/-- Model of Python's `str.lower`. -/
def pyLower (s : String) : String := String.mk (s.toList.map pyLowerChar)

/-- One pass of `WHITESPACE_RE.sub(" ", ·)` (`WHITESPACE_RE = re.compile(r"\s+")`,
`src/analyzer.py` line 7): every maximal run of whitespace characters is
replaced by a single space. `inRun` records whether the previous character
belonged to a whitespace run already replaced. -/
def collapseWsGo : List Char → Bool → List Char
  | [], _ => []
  | c :: cs, inRun =>
    if pyIsSpace c then
      (if inRun then collapseWsGo cs true else ' ' :: collapseWsGo cs true)
    else c :: collapseWsGo cs false

/-- Model of `WHITESPACE_RE.sub(" ", s)`. -/
def collapseWs (s : String) : String := String.mk (collapseWsGo s.toList false)

/-- Model of Python's `str.strip()` (no argument): drop leading and trailing
whitespace. -/
def pyStrip (s : String) : String :=
  String.mk (((s.toList.dropWhile pyIsSpace).reverse.dropWhile pyIsSpace).reverse)

/-- Worker for `pySplitWs`: split a character list on whitespace runs,
dropping empty pieces, as Python's `str.split()` with no argument does. -/
def pySplitWsGo : List Char → List Char → List String
  | [], acc => if acc.isEmpty then [] else [String.mk acc.reverse]
  | c :: cs, acc =>
    if pyIsSpace c then
      (if acc.isEmpty then pySplitWsGo cs [] else String.mk acc.reverse :: pySplitWsGo cs [])
    else pySplitWsGo cs (c :: acc)

/-- Model of Python's `str.split()` with no argument. -/
def pySplitWs (s : String) : List String := pySplitWsGo s.toList []

/-- `listStartsWith hay needle` holds when `needle` is an initial segment of
`hay`. -/
def listStartsWith : List Char → List Char → Bool
  | _, [] => true
  | [], _ :: _ => false
  | c :: cs, d :: ds => c == d && listStartsWith cs ds

/-- `listHasSub hay needle` holds when `needle` occurs contiguously inside
`hay`. -/
def listHasSub : List Char → List Char → Bool
  | hay, needle =>
    if listStartsWith hay needle then true
    else
      match hay with
      | [] => false
      | _ :: t => listHasSub t needle

/-- Model of Python's substring operator: `pyIn needle hay` is
`needle in hay`. -/
def pyIn (needle hay : String) : Bool := listHasSub hay.toList needle.toList

/-- Model of Python's `repr` of a list of strings (none of the program's
phrases contains a quote), used by the f-string of `analyze_direct_answer`. -/
def pyStrListRepr (l : List String) : String :=
  "[" ++ String.intercalate ", " (l.map (fun s => "'" ++ s ++ "'")) ++ "]"

/-- Model of Python's regex word character class `\w` (with `re.UNICODE`),
for the Basic Latin, Latin-1 and Latin Extended blocks: alphanumerics,
underscore and accented Latin letters. -/
def isWordChar (c : Char) : Bool :=
  ('a' ≤ c && c ≤ 'z') || ('A' ≤ c && c ≤ 'Z') || ('0' ≤ c && c ≤ '9') ||
  c == '_' ||
  (0xc0 ≤ c.val && c.val ≤ 0x24f && c.val != 0xd7 && c.val != 0xf7)

/-- Case-insensitive anchored match: lower the text characters and compare
with the (already lower-case) pattern characters; on success return the
remaining text. -/
def matchLowerAt : List Char → List Char → Option (List Char)
  | ts, [] => some ts
  | [], _ :: _ => none
  | t :: ts, p :: ps => if pyLowerChar t == p then matchLowerAt ts ps else none

/-- Does one of the patterns match at this position with `\b` word boundaries
on both sides?  `prev` is the character before the position, if any. -/
def wordHitAt (prev : Option Char) (ts : List Char) (pats : List (List Char)) : Bool :=
  (match prev with | none => true | some c => !isWordChar c) &&
  pats.any (fun p =>
    match matchLowerAt ts p with
    | none => false
    | some rest => match rest with | [] => true | c :: _ => !isWordChar c)

/-- Scan of `re.search` for the pattern `\b(p₁|p₂|…)\b` with `re.IGNORECASE`:
try every position. -/
def wordSearchGo (prev : Option Char) (ts : List Char) (pats : List (List Char)) : Bool :=
  match ts with
  | [] => wordHitAt prev [] pats
  | c :: rest => wordHitAt prev ts pats || wordSearchGo (some c) rest pats

/-- Model of `bool(re.search(r"\b(w₁|w₂|…)\b", s, re.IGNORECASE))` for
lower-case alternatives `pats` (the program's source and FAQ marker words). -/
def hasWordCI (pats : List String) (s : String) : Bool :=
  wordSearchGo none s.toList (pats.map String.toList)

/-- The unit alternatives of the facts regex of `analyze_facts`
(`src/analyzer.py` lines 220-223), in the pattern's alternation order. -/
def factsUnits : List String :=
  ["mg", "g", "kg", "%", "kcal", "ml", "mcg", "gramov", "miligramov"]

/-- Match one unit alternative (first in alternation order, case-insensitive)
at this position; return the rest of the text on success. -/
def matchUnitAt (ts : List Char) : Option (List Char) :=
  (factsUnits.map String.toList).foldr
    (fun p acc => match matchLowerAt ts p with | some r => some r | none => acc)
    none

/-- Attempt of the regex `\d+\s?(unit…)` at one position: a maximal run of
digits (backtracking into the run can never succeed because no alternative
starts with a digit), then optionally one whitespace character (preferred,
as `\s?` is greedy), then a unit. Returns the rest after the match. -/
def factsMatchAt (ts : List Char) : Option (List Char) :=
  let ds := ts.takeWhile Char.isDigit
  let rest := ts.dropWhile Char.isDigit
  if ds.isEmpty then none
  else
    match rest with
    | [] => none
    | c :: rest' =>
      if pyIsSpace c then
        match matchUnitAt rest' with
        | some r => some r
        | none => matchUnitAt rest
      else matchUnitAt rest

/-- Scan of `re.findall` for the facts regex: try each position from the
left; on a match, resume after it; otherwise advance one character. `fuel`
bounds the number of steps (the caller passes the text length). -/
def factsScan : Nat → List Char → Nat
  | 0, _ => 0
  | _ + 1, [] => 0
  | fuel + 1, c :: cs =>
    match factsMatchAt (c :: cs) with
    | some rest => 1 + factsScan fuel rest
    | none => factsScan fuel cs

/-- Model of `len(facts_regex.findall(s))` of `analyze_facts`. -/
def countFacts (s : String) : Nat := factsScan (s.toList.length + 1) s.toList

/-- `inflection` (`src/utils.py` lines 9-23), modelled byte-faithfully: the
source file literally returns the two characters U+0E23 U+0E01 (the UTF-8
bytes of `"á"` misdecoded as cp874) in its second branch. -/
def inflection (num : Int) : String :=
  if num == 1 then "o"
  else if 1 < num && num < 5 then "รก"
  else ""

mutual
/-- A node of the parsed HTML tree built by BeautifulSoup's `html.parser`
tree builder: a text node, or an element with a tag name, attributes and
children. -/
inductive HNode where
  | text (s : String)
  | elem (tag : String) (attrs : List (String × String)) (kids : HNodes)
  deriving DecidableEq
/-- A sibling list of parsed HTML nodes. -/
inductive HNodes where
  | nil
  | cons (n : HNode) (ns : HNodes)
  deriving DecidableEq
end

/-- First value of an attribute, as `Tag.get` returns it (duplicate
attributes keep the first occurrence under `html.parser`). -/
def getAttr : List (String × String) → String → Option String
  | [], _ => none
  | (k, v) :: r, n => if k == n then some v else getAttr r n

mutual
/-- The strings of all text nodes of a node's subtree, in document order
(what `get_text` joins). -/
def textsOfNode : HNode → List String
  | .text s => [s]
  | .elem _ _ ks => textsOfNodes ks
/-- The strings of all text nodes under a sibling list, in document order. -/
def textsOfNodes : HNodes → List String
  | .nil => []
  | .cons n ns => textsOfNode n ++ textsOfNodes ns
end

/-- Model of `get_text(separator)` with `strip=False`: join all text node
strings with the separator. -/
def getTextSep (sep : String) (ns : HNodes) : String :=
  String.intercalate sep (textsOfNodes ns)

/-- Model of `node.get_text()` (empty separator). -/
def getTextNode (n : HNode) : String := String.join (textsOfNode n)

/-- Model of `node.get_text(sep, strip=True)`: strip every text node string,
drop the empty ones, join with the separator. -/
def getTextStripSep (sep : String) (n : HNode) : String :=
  String.intercalate sep
    (((textsOfNode n).map pyStrip).filter (fun s => !(s == "")))

mutual
/-- Model of decomposing every element with a tag in `bad` (recursively, as
`for tag in soup([...]): tag.decompose()` removes whole subtrees):
`none` when the node itself is removed. -/
def stripTagsNode (bad : List String) : HNode → Option HNode
  | .text s => some (.text s)
  | .elem t a ks =>
    if bad.contains t then none else some (.elem t a (stripTagsNodes bad ks))
/-- `stripTagsNode` mapped over a sibling list. -/
def stripTagsNodes (bad : List String) : HNodes → HNodes
  | .nil => .nil
  | .cons n ns =>
    match stripTagsNode bad n with
    | none => stripTagsNodes bad ns
    | some n' => .cons n' (stripTagsNodes bad ns)
end

/-- Is this element the table-of-contents container
(`soup.find("div", id="ez-toc-container")` match)? -/
def isTocDiv : HNode → Bool
  | .text _ => false
  | .elem t a _ => t == "div" && getAttr a "id" == some "ez-toc-container"

mutual
/-- Remove the first table-of-contents element in document order from a
node's subtree (`toc.decompose()` after `soup.find`); the flag reports
whether a removal happened.  The node itself being the container removes
its whole subtree. -/
def removeTocNode : HNode → Option HNode × Bool
  | .text s => (some (.text s), false)
  | .elem t a ks =>
    if isTocDiv (.elem t a ks) then (none, true)
    else
      let r := removeTocNodes ks
      (some (.elem t a r.1), r.2)
/-- Remove the first table-of-contents element in document order from a
sibling list. -/
def removeTocNodes : HNodes → HNodes × Bool
  | .nil => (.nil, false)
  | .cons n ns =>
    match removeTocNode n with
    | (none, _) => (ns, true)
    | (some n', true) => (.cons n' ns, true)
    | (some n', false) =>
      let r := removeTocNodes ns
      (.cons n' r.1, r.2)
end

/-- Model of the toc-removal step shared by `_get_clean_content_html` and
`_get_first_paragraph` (`src/analyzer.py` lines 72-74 and 93-95). -/
def removeToc (ns : HNodes) : HNodes := (removeTocNodes ns).1

mutual
/-- First element with the given tag in document order
(`soup.select_one(tag)` / `soup.find(tag)`). -/
def findFirstTagNode (tag : String) : HNode → Option HNode
  | .text _ => none
  | .elem t a ks =>
    if t == tag then some (.elem t a ks) else findFirstTagNodes tag ks
/-- First element with the given tag under a sibling list. -/
def findFirstTagNodes (tag : String) : HNodes → Option HNode
  | .nil => none
  | .cons n ns =>
    match findFirstTagNode tag n with
    | some m => some m
    | none => findFirstTagNodes tag ns
end

mutual
/-- Number of elements with the given tag in a node's subtree
(`len(soup.find_all(tag))`). -/
def countTagNode (tag : String) : HNode → Nat
  | .text _ => 0
  | .elem t _ ks => (if t == tag then 1 else 0) + countTagNodes tag ks
/-- Number of elements with the given tag under a sibling list. -/
def countTagNodes (tag : String) : HNodes → Nat
  | .nil => 0
  | .cons n ns => countTagNode tag n + countTagNodes tag ns
end

mutual
/-- All elements whose tag is in `tags`, in document order
(`soup.find_all([...])`). -/
def collectTaggedNode (tags : List String) : HNode → List HNode
  | .text _ => []
  | .elem t a ks =>
    (if tags.contains t then [HNode.elem t a ks] else []) ++ collectTaggedNodes tags ks
/-- All elements whose tag is in `tags` under a sibling list. -/
def collectTaggedNodes (tags : List String) : HNodes → List HNode
  | .nil => []
  | .cons n ns => collectTaggedNode tags n ++ collectTaggedNodes tags ns
end

mutual
/-- The `href` values of all anchors that carry the attribute, in document
order (`[a.get("href", "") for a in soup.find_all("a", href=True)]`). -/
def collectLinksNode : HNode → List String
  | .text _ => []
  | .elem t a ks =>
    (if t == "a" then (match getAttr a "href" with | some v => [v] | none => []) else [])
      ++ collectLinksNodes ks
/-- The `href` values of all anchors under a sibling list. -/
def collectLinksNodes : HNodes → List String
  | .nil => []
  | .cons n ns => collectLinksNode n ++ collectLinksNodes ns
end

mutual
/-- Number of table-of-contents container elements in a node's subtree
(used to state that toc removal removes the unique container). -/
def tocCountNode : HNode → Nat
  | .text s => (if isTocDiv (.text s) then 1 else 0)
  | .elem t a ks =>
    (if isTocDiv (.elem t a ks) then 1 else 0) + tocCountNodes ks
/-- Number of table-of-contents container elements under a sibling list. -/
def tocCountNodes : HNodes → Nat
  | .nil => 0
  | .cons n ns => tocCountNode n + tocCountNodes ns
end

mutual
/-- First table-of-contents container element in document order
(`soup.find("div", id="ez-toc-container")`). -/
def findTocDivNode : HNode → Option HNode
  | .text _ => none
  | .elem t a ks =>
    if isTocDiv (.elem t a ks) then some (.elem t a ks) else findTocDiv ks
/-- First table-of-contents container element under a sibling list. -/
def findTocDiv : HNodes → Option HNode
  | .nil => none
  | .cons n ns =>
    match findTocDivNode n with
    | some m => some m
    | none => findTocDiv ns
end

/-- ASCII lower-casing of tag and attribute names, as `html.parser` does. -/
def asciiLowerChar (c : Char) : Char :=
  if 'A' ≤ c && c ≤ 'Z' then Char.ofNat (c.toNat + 32) else c

/-- Characters allowed inside a tag name. -/
def isTagNameChar (c : Char) : Bool :=
  ('a' ≤ c && c ≤ 'z') || ('A' ≤ c && c ≤ 'Z') || ('0' ≤ c && c ≤ '9') ||
  c == '-' || c == '_' || c == ':' || c == '.'

/-- Characters allowed inside an attribute name. -/
def isAttrNameChar (c : Char) : Bool :=
  !(pyIsSpace c) && c != '=' && c != '>' && c != '/' && c != '<'

/-- Drop everything up to and including the next `>`. -/
def dropThroughGt (cs : List Char) : List Char :=
  (cs.dropWhile (fun c => !(c == '>'))).drop 1

/-- Case-insensitive `listStartsWith` (ASCII), for raw-text close tags. -/
def listStartsWithCI : List Char → List Char → Bool
  | _, [] => true
  | [], _ :: _ => false
  | c :: cs, d :: ds => asciiLowerChar c == asciiLowerChar d && listStartsWithCI cs ds

/-- Raw-text scan for `script`/`style` content: collect characters until the
matching close tag (`</tag`, case-insensitive), then skip that tag through
its `>`.  Returns the collected content and the rest of the input. -/
def rawScan : Nat → List Char → List Char → List Char × List Char
  | 0, cs, _ => ([], cs)
  | _ + 1, [], _ => ([], [])
  | fuel + 1, c :: cs, closer =>
    if listStartsWithCI (c :: cs) closer then ([], dropThroughGt (c :: cs))
    else
      let r := rawScan fuel cs closer
      (c :: r.1, r.2)

/-- Attribute list scan inside a start tag: returns the attributes, whether
the tag is self-closing (`/>`), and the input after the closing `>`.
Handles double-quoted, single-quoted, unquoted and bare attributes. -/
def scanAttrs : Nat → List Char → List (String × String) × Bool × List Char
  | 0, cs => ([], false, cs)
  | _ + 1, [] => ([], false, [])
  | fuel + 1, c :: cs =>
    if pyIsSpace c then scanAttrs fuel cs
    else if c == '>' then ([], false, cs)
    else if c == '/' then
      match cs with
      | '>' :: rest => ([], true, rest)
      | _ => scanAttrs fuel cs
    else
      let nm := (c :: cs).takeWhile isAttrNameChar
      let r1 := (c :: cs).dropWhile isAttrNameChar
      let nmS := String.mk (nm.map asciiLowerChar)
      match r1 with
      | '=' :: '"' :: r2 =>
        let v := r2.takeWhile (fun d => !(d == '"'))
        let r3 := (r2.dropWhile (fun d => !(d == '"'))).drop 1
        let res := scanAttrs fuel r3
        ((nmS, String.mk v) :: res.1, res.2.1, res.2.2)
      | '=' :: '\'' :: r2 =>
        let v := r2.takeWhile (fun d => !(d == '\''))
        let r3 := (r2.dropWhile (fun d => !(d == '\''))).drop 1
        let res := scanAttrs fuel r3
        ((nmS, String.mk v) :: res.1, res.2.1, res.2.2)
      | '=' :: r2 =>
        let v := r2.takeWhile (fun d => !(pyIsSpace d) && d != '>')
        let r3 := r2.dropWhile (fun d => !(pyIsSpace d) && d != '>')
        let res := scanAttrs fuel r3
        ((nmS, String.mk v) :: res.1, res.2.1, res.2.2)
      | _ =>
        if nm.isEmpty then scanAttrs fuel cs
        else
          let res := scanAttrs fuel r1
          ((nmS, "") :: res.1, res.2.1, res.2.2)

/-- Recursive-descent tree construction modelling `html.parser` with the
BeautifulSoup tree builder on the fragments this program handles: returns
the sibling list up to (and consuming) the close tag named by `stop`, along
with the remaining input.  Stray close tags are dropped; `script` and
`style` take raw text content; `fuel` bounds the recursion (the caller
passes the input length). -/
def parseMany : Nat → List Char → Option String → HNodes × List Char
  | 0, cs, _ => (.nil, cs)
  | _ + 1, [], _ => (.nil, [])
  | fuel + 1, '<' :: rest, stop =>
    match rest with
    | [] => (.cons (.text "<") .nil, [])
    | '/' :: r1 =>
      let nm := String.mk ((r1.takeWhile isTagNameChar).map asciiLowerChar)
      let r2 := dropThroughGt ('<' :: rest)
      if stop == some nm then (.nil, r2)
      else parseMany fuel r2 stop
    | '!' :: _ => parseMany fuel (dropThroughGt ('<' :: rest)) stop
    | c :: _ =>
      if isTagNameChar c then
        let nm := String.mk ((rest.takeWhile isTagNameChar).map asciiLowerChar)
        let r1 := rest.dropWhile isTagNameChar
        let res := scanAttrs (fuel + 1) r1
        let attrs := res.1
        let selfClose := res.2.1
        let r2 := res.2.2
        if selfClose then
          let sibs := parseMany fuel r2 stop
          (.cons (.elem nm attrs .nil) sibs.1, sibs.2)
        else if nm == "script" || nm == "style" then
          let raw := rawScan (fuel + 1) r2 ('<' :: '/' :: nm.toList)
          let kids : HNodes :=
            if raw.1.isEmpty then .nil else .cons (.text (String.mk raw.1)) .nil
          let sibs := parseMany fuel raw.2 stop
          (.cons (.elem nm attrs kids) sibs.1, sibs.2)
        else
          let inner := parseMany fuel r2 (some nm)
          let sibs := parseMany fuel inner.2 stop
          (.cons (.elem nm attrs inner.1) sibs.1, sibs.2)
      else
        let sibs := parseMany fuel rest stop
        (.cons (.text "<") sibs.1, sibs.2)
  | fuel + 1, c :: cs, stop =>
    let t := (c :: cs).takeWhile (fun d => !(d == '<'))
    let r := (c :: cs).dropWhile (fun d => !(d == '<'))
    let sibs := parseMany fuel r stop
    (.cons (.text (String.mk t)) sibs.1, sibs.2)

/-- Model of `BeautifulSoup(s, "html.parser")` for this program's inputs. -/
def parseHtml (s : String) : HNodes :=
  (parseMany (s.toList.length + 2) s.toList none).1

/-- The immutable part of an `Article` instance as set up by
`Article.__init__` (`src/analyzer.py` lines 35-40).  `meta_description` is
`Option` because Python stores `None` there when the JSON field is null;
the checks that then raise are modelled with `Except`. -/
structure Article where
  id : Int
  url : String
  title : String
  content_html : String
  content_clean : String
  meta_description : Option String
  deriving DecidableEq

/-- A possibly-missing, possibly-null JSON string field of a raw post
record. -/
inductive JStr where
  | absent
  | null
  | str (s : String)
  deriving DecidableEq

/-- A raw WordPress post payload, restricted to the keys `Article.__init__`
reads.  `none` in `id`/`link`/`title_rendered` models the key path being
absent (subscripting then raises `KeyError`); `content_rendered` and
`yoast_description` distinguish absent, null and string values because
`__init__` treats them differently (`post["content"]["rendered"] or ""`
versus `post.get("yoast_head_json", {}).get("description", "")`). -/
structure Post where
  id : Option Int
  link : Option String
  title_rendered : Option String
  content_rendered : JStr
  yoast_description : JStr
  deriving DecidableEq

/-- Model of `_get_clean_content_html` (`src/analyzer.py` lines 60-82):
parse, decompose the first toc container, decompose `script`/`style`/
`noscript`, extract text with a space separator, collapse whitespace,
strip. -/
def get_clean_content_html (html : String) : String :=
  let soup := parseHtml html
  let soup := removeToc soup
  let soup := stripTagsNodes ["script", "style", "noscript"] soup
  pyStrip (collapseWs (getTextSep " " soup))

/-- Model of `_get_first_paragraph` (`src/analyzer.py` lines 84-105): same
removals, then the text of the first `p` element with whitespace collapsed
and stripped, or the empty string when no `p` exists. -/
def get_first_paragraph (html : String) : String :=
  let soup := parseHtml html
  let soup := removeToc soup
  let soup := stripTagsNodes ["script", "style", "noscript"] soup
  match findFirstTagNodes "p" soup with
  | none => ""
  | some p => pyStrip (collapseWs (getTextNode p))

/-- Model of `Article.__init__` on a raw post record.  Subscripting a
missing key raises `KeyError` (an `.error` here); a null
`content.rendered` becomes `""` through `or ""`; a missing
`yoast_head_json` or `description` defaults to `""` through `.get`, while
a null `description` is stored as Python `None`. -/
def mkArticle (post : Post) : Except String Article :=
  match post.id with
  | none => .error "KeyError: 'id'"
  | some i =>
    match post.link with
    | none => .error "KeyError: 'link'"
    | some url =>
      match post.title_rendered with
      | none => .error "KeyError: 'title'"
      | some title =>
        match post.content_rendered with
        | .absent => .error "KeyError: 'content'"
        | cr =>
          let html := match cr with
            | .null => ""
            | .str s => s
            | .absent => ""
          let meta : Option String := match post.yoast_description with
            | .absent => some ""
            | .null => none
            | .str s => some s
          .ok { id := i, url := url, title := title, content_html := html,
                content_clean := get_clean_content_html html,
                meta_description := meta }

/-- The forbidden filler phrases of `analyze_direct_answer`
(`src/analyzer.py` line 118). -/
def forbidden_phrases : List String :=
  ["v tomto článku", "poďme sa pozrieť", "dozviete sa", "povieme si"]

/-- Model of `analyze_direct_answer` (`src/analyzer.py` lines 108-127),
returning the pair `(passed, recommendation)` that the method hands to
`_add_to_report`.  The method itself cannot raise, hence always `.ok`. -/
def analyze_direct_answer (a : Article) : Except String (Bool × String) :=
  let intro := pyLower (get_first_paragraph a.content_html)
  let found := forbidden_phrases.filter (fun p => pyIn p intro)
  .ok (found.isEmpty, "Odstrániť nechcené frázy (" ++ pyStrListRepr found ++ ").")

/-- Model of `_contains_definition_in_what_is_segment` (`src/analyzer.py`
lines 130-145). -/
def contains_definition_in_what_is_segment (a : Article) : Bool :=
  match findTocDiv (parseHtml a.content_html) with
  | none => false
  | some toc =>
    let toc_text := pyLower (getTextStripSep " " toc)
    pyIn "čo je" toc_text || pyIn "čo sú" toc_text

/-- Model of `_contains_definition_by_title` (`src/analyzer.py` lines
147-178). -/
def contains_definition_by_title (a : Article) : Bool :=
  if !(pyIn ":" a.title) then false
  else
    let potential_keyword := pyStrip (String.mk (a.title.toList.takeWhile (fun c => !(c == ':'))))
    let words := pySplitWs potential_keyword
    if words.length > 2 || potential_keyword == "" || pyLower potential_keyword == "fitness recept" then false
    else
      let text := pyLower (collapseWs a.content_clean)
      let keyword := pyLower potential_keyword
      [keyword ++ " je", keyword ++ " sú", keyword ++ " znamená",
       keyword ++ " predstavuje"].any (fun p => pyIn p text)

/-- Model of `analyze_definition` (`src/analyzer.py` lines 180-192). -/
def analyze_definition (a : Article) : Except String (Bool × String) :=
  .ok (contains_definition_in_what_is_segment a || contains_definition_by_title a,
       "Pridať priamu definíciu hlavného pojmu.")

/-- Model of `analyze_headings` (`src/analyzer.py` lines 195-210). -/
def analyze_headings (a : Article) : Except String (Bool × String) :=
  let count := countTagNodes "h2" (parseHtml a.content_html)
  .ok (decide (3 ≤ count),
       "Pridať nadpisy h2 v počte aspoň " ++ toString ((3 : Int) - (count : Int)) ++ ".")

/-- Model of `analyze_facts` (`src/analyzer.py` lines 213-231). -/
def analyze_facts (a : Article) : Except String (Bool × String) :=
  let count := countFacts a.content_clean
  .ok (decide (3 ≤ count),
       "Pridať číselné údaje s jednotkami v počte aspoň " ++ toString ((3 : Int) - (count : Int)) ++ ".")

/-- The trusted domains of `analyze_sources` (`src/analyzer.py` lines
243-247): three of them in the source. -/
def source_domains : List String :=
  ["pubmed.ncbi.nlm.nih.gov", "pmc.ncbi.nlm.nih.gov", "examine.com"]

/-- Model of `bool(source_text_regex.search(clean))` of `analyze_sources`
(`src/analyzer.py` lines 248-251, 257). -/
def sourceWordHit (clean : String) : Bool :=
  hasWordCI ["zdroje", "references", "štúdie"] clean

/-- The decision core of `analyze_sources` (`src/analyzer.py` lines
253-259) as a function of the collected links and the clean text:
`has_scientific_link or has_source_text`. -/
def sourcesCore (links : List String) (clean : String) : Bool :=
  links.any (fun link => source_domains.any (fun domain => pyIn domain link))
    || sourceWordHit clean

/-- Model of `analyze_sources` (`src/analyzer.py` lines 234-263). -/
def analyze_sources (a : Article) : Except String (Bool × String) :=
  .ok (sourcesCore (collectLinksNodes (parseHtml a.content_html)) a.content_clean,
       "Pridať sekciu \"Zdroje\".")

/-- The FAQ marker alternatives of `analyze_faq` (`src/analyzer.py` lines
275-278). -/
def faq_markers : List String :=
  ["f&q", "faq", "často kladené otázky", "otázky a odpovede"]

/-- Model of `analyze_faq` (`src/analyzer.py` lines 266-292). -/
def analyze_faq (a : Article) : Except String (Bool × String) :=
  let soup := parseHtml a.content_html
  let headings_text := String.intercalate " "
    ((collectTaggedNodes ["h1", "h2", "h3", "h4", "h5", "h6"] soup).map
      (fun h => getTextStripSep "" h))
  .ok (hasWordCI faq_markers headings_text || hasWordCI faq_markers a.content_clean,
       "Pridať F&Q sekciu.")

/-- Model of `analyze_lists` (`src/analyzer.py` lines 295-311). -/
def analyze_lists (a : Article) : Except String (Bool × String) :=
  let soup := parseHtml a.content_html
  .ok ((findFirstTagNodes "ul" soup).isSome || (findFirstTagNodes "ol" soup).isSome,
       "Pridať aspoň 1 odrážkový alebo očíslovaný zoznam.")

/-- Model of `analyze_tables` (`src/analyzer.py` lines 314-327). -/
def analyze_tables (a : Article) : Except String (Bool × String) :=
  let soup := parseHtml a.content_html
  .ok ((findFirstTagNodes "table" soup).isSome, "Pridať aspoň 1 tabuľku.")

/-- Model of `analyze_word_count_ok` (`src/analyzer.py` lines 330-347);
`analyze` calls it with the default `min_words = 500`. -/
def analyze_word_count_ok (a : Article) (min_words : Nat) : Except String (Bool × String) :=
  let word_count := (pySplitWs a.content_clean).length
  .ok (decide (min_words ≤ word_count),
       "Článok nie je dostatočne dlhý, pridať aspoň "
         ++ toString ((min_words : Int) - (word_count : Int))
         ++ " slov" ++ inflection ((min_words : Int) - (word_count : Int)) ++ ".")

/-- Model of `analyze_meta_ok` (`src/analyzer.py` lines 350-370); `analyze`
calls it with the defaults `min_len = 120`, `max_len = 160`.  When the
stored meta description is Python `None`, `self.meta_description.strip()`
raises, modelled by `.error`. -/
def analyze_meta_ok (a : Article) (min_len max_len : Nat) : Except String (Bool × String) :=
  match a.meta_description with
  | none => .error "AttributeError: 'NoneType' object has no attribute 'strip'"
  | some d =>
    let length := (pyStrip d).length
    let recommendation :=
      if length < min_len then
        "Meta popis je prikrátky, pridať aspoň " ++ toString ((min_len : Int) - (length : Int))
          ++ " slov" ++ inflection ((min_len : Int) - (length : Int)) ++ "."
      else if max_len < length then
        "Meta popis je pridlhý, ubrať aspoň " ++ toString ((length : Int) - (max_len : Int))
          ++ " slov" ++ inflection ((length : Int) - (max_len : Int)) ++ "."
      else ""
    .ok (decide (min_len ≤ length ∧ length ≤ max_len), recommendation)

/-- The mutable accumulator of an `Article` instance during `analyze`:
`self.score`, `self.points`, `self.recommendations`, plus the warnings
emitted through `warnings.warn` (the caller-visible diagnostics). -/
structure AState where
  score : Nat
  points : List (String × Bool)
  recommendations : List String
  warnings : List String
  deriving DecidableEq

/-- The accumulator as `__init__` leaves it: score 0, empty report, no
recommendations, no warnings. -/
def initState : AState := ⟨0, [], [], []⟩

/-- Python `dict` assignment on an insertion-ordered association list:
update in place when the key exists, append otherwise. -/
def dictInsert (l : List (String × Bool)) (k : String) (v : Bool) : List (String × Bool) :=
  if l.any (fun p => p.1 == k) then
    l.map (fun p => if p.1 == k then (k, v) else p)
  else l ++ [(k, v)]

/-- Model of `_add_to_report` (`src/analyzer.py` lines 46-58). -/
def add_to_report (st : AState) (name : String) (passed : Bool) (recommendation : String) : AState :=
  { st with
    points := dictInsert st.points name passed,
    score := st.score + (if passed then 1 else 0),
    recommendations :=
      if passed then st.recommendations else st.recommendations ++ [recommendation] }

/-- The synthetic recommendation `_run_analysis_step` records for a check
that raised (`src/analyzer.py` line 392). -/
def failMsg (name : String) : String := "Analýza '" ++ name ++ "' zlyhala kvôli chybe."

/-- The diagnostic `_run_analysis_step` surfaces through `warnings.warn`
(`src/analyzer.py` lines 384-388). -/
def warnMsg (name url exc : String) : String :=
  "Analysis step '" ++ name ++ "' failed for article '" ++ url ++ "': " ++ exc

/-- Model of `_run_analysis_step` (`src/analyzer.py` lines 372-393): run the
check; on success record its outcome; on an exception emit a warning and
record the check as failed with the synthetic recommendation. -/
def run_analysis_step (a : Article) (st : AState) (name : String)
    (fn : Article → Except String (Bool × String)) : AState :=
  match fn a with
  | .ok pr => add_to_report st name pr.1 pr.2
  | .error exc =>
    let st' := add_to_report st name false (failMsg name)
    { st' with warnings := st'.warnings ++ [warnMsg name a.url exc] }

/-- The fixed ordered check registry of `analyze` (`src/analyzer.py` lines
403-412): the ten `_run_analysis_step` calls in source order, with the
default arguments `analyze` passes. -/
def checkList : List (String × (Article → Except String (Bool × String))) :=
  [("direct_answer", analyze_direct_answer),
   ("definition", analyze_definition),
   ("headings", analyze_headings),
   ("facts", analyze_facts),
   ("sources", analyze_sources),
   ("faq", analyze_faq),
   ("lists", analyze_lists),
   ("tables", analyze_tables),
   ("word_count_ok", fun a => analyze_word_count_ok a 500),
   ("meta_ok", fun a => analyze_meta_ok a 120 160)]

/-- Run a sequence of named checks through `_run_analysis_step`, threading
the accumulator. -/
def runChecks (a : Article)
    (cs : List (String × (Article → Except String (Bool × String))))
    (st : AState) : AState :=
  cs.foldl (fun s nc => run_analysis_step a s nc.1 nc.2) st

/-- The dictionary `analyze` returns (`src/analyzer.py` lines 414-420). -/
structure AnalysisResult where
  url : String
  title : String
  score : Nat
  report : List (String × Bool)
  recommendations : List String
  deriving DecidableEq

/-- Model of `Article.analyze` (`src/analyzer.py` lines 395-420): run the
ten registered checks in order on a freshly constructed accumulator and
shape the result dictionary.  The final accumulator (with the emitted
warnings) is returned alongside. -/
def analyze (a : Article) : AnalysisResult × AState :=
  let st := runChecks a checkList initState
  ({ url := a.url, title := a.title, score := st.score, report := st.points,
     recommendations := st.recommendations }, st)

/-- The ten fixed check names in evaluation order (also `POINT_COLS` of
`src/reporter_utils.py`). -/
def tenNames : List String :=
  ["direct_answer", "definition", "headings", "facts", "sources",
   "faq", "lists", "tables", "word_count_ok", "meta_ok"]

/-- A CSV/HTML row as `Reporter.add_article` builds it (`src/reporter.py`
lines 31-52): report booleans as 0/1 columns, url, title, score, and the
recommendations joined with `" | "`. -/
structure Row where
  url : String
  title : String
  score : Nat
  point_cols : List (String × Nat)
  recommendations : String
  deriving DecidableEq

/-- Model of `Reporter.add_article` applied to an already constructed
article. -/
def add_article_row (a : Article) : Row :=
  let result := (analyze a).1
  { url := result.url, title := result.title, score := result.score,
    point_cols := result.report.map (fun p => (p.1, if p.2 then 1 else 0)),
    recommendations := String.intercalate " | " result.recommendations }

/-- Model of the analysis loop of `Reporter.do_report` (`src/reporter.py`
lines 238-240): construct and analyze each post in order; an exception
escaping `Article(post)` propagates and aborts the whole batch, which the
`Except` monad models by short-circuiting. -/
def do_report_rows (posts : List Post) : Except String (List Row) :=
  posts.mapM (fun p => (mkArticle p).map add_article_row)

/-- Outcome projection: the boolean `_run_analysis_step` records for a check
result (a raising check is recorded as failed). -/
def stepPassed (r : Except String (Bool × String)) : Bool :=
  match r with
  | .ok pr => pr.1
  | .error _ => false

/-- Outcome projection: the recommendation `_run_analysis_step` appends for
a check result, if any. -/
def stepRec (name : String) (r : Except String (Bool × String)) : Option String :=
  match r with
  | .ok (true, _) => none
  | .ok (false, rec) => some rec
  | .error _ => some (failMsg name)

/-- Outcome projection: the warning `_run_analysis_step` emits for a check
result, if any. -/
def stepWarn (url name : String) (r : Except String (Bool × String)) : Option String :=
  match r with
  | .ok _ => none
  | .error exc => some (warnMsg name url exc)

/-- Projection of the recommendation text carried by a check result. -/
def getRecString (r : Except String (Bool × String)) : String :=
  match r with
  | .ok pr => pr.2
  | .error _ => ""

/-- An article used to instantiate universally quantified theorems. -/
def artW : Article :=
  { id := 1, url := "https://example.com/a", title := "T", content_html := "",
    content_clean := "", meta_description := some "" }

/-- An article whose content has no paragraph element. -/
def artNoP : Article :=
  { id := 1, url := "u", title := "t", content_html := "<div>x</div>",
    content_clean := "x", meta_description := some "" }

/-- An article carrying a given meta description (only `analyze_meta_ok`
reads the other fields' values). -/
def mkMetaArticle (s : String) : Article :=
  { id := 0, url := "", title := "", content_html := "", content_clean := "",
    meta_description := some s }

/-- A complete post record. -/
def postW : Post :=
  { id := some 1, link := some "u", title_rendered := some "t",
    content_rendered := .str "", yoast_description := .str "" }

/-- A post record whose `content`/`rendered` key path is absent. -/
def postMissingContent : Post :=
  { id := some 1, link := some "u", title_rendered := some "t",
    content_rendered := .absent, yoast_description := .str "" }

/-- A post record whose `content.rendered` is JSON null. -/
def postNullContent : Post :=
  { id := some 1, link := some "u", title_rendered := some "t",
    content_rendered := .null, yoast_description := .str "" }

/-- A post record with no `yoast_head_json.description`. -/
def postNoYoast : Post :=
  { id := some 1, link := some "u", title_rendered := some "t",
    content_rendered := .str "", yoast_description := .absent }

/-- A sibling list containing exactly one table-of-contents container. -/
def tocNs : HNodes :=
  .cons (.elem "div" [("id", "ez-toc-container")] (.cons (.text "TOC") .nil))
    (.cons (.elem "p" [] (.cons (.text "x") .nil)) .nil)

/-- Count of table-of-contents containers under an optional node. -/
def tocCountOpt : Option HNode → Nat
  | none => 0
  | some n => tocCountNode n

/-- Count of elements with a given tag under an optional node. -/
def countTagOpt (t : String) : Option HNode → Nat
  | none => 0
  | some n => countTagNode t n

theorem list_map_set {α β : Type} (f : α → β) :
    ∀ (l : List α) (i : Nat) (v : α), (l.set i v).map f = (l.map f).set i (f v) := by
  intro l
  induction l with
  | nil => intro i v; rfl
  | cons a t ih =>
    intro i v
    cases i with
    | zero => rfl
    | succ j => simp [List.set, ih]

theorem list_set_of_get? {α : Type} :
    ∀ (l : List α) (i : Nat) (x : α), l.get? i = some x → l.set i x = l := by
  intro l
  induction l with
  | nil => intro i x h; cases i <;> simp only [List.get?] at h <;> cases h
  | cons a t ih =>
    intro i x h
    cases i with
    | zero =>
      rw [List.get?_cons_zero] at h
      injection h with h
      simp [List.set, h]
    | succ j =>
      rw [List.get?_cons_succ] at h
      simp [List.set, ih j x h]

theorem list_get?_set {α : Type} :
    ∀ (l : List α) (i : Nat) (v : α), i < l.length → (l.set i v).get? i = some v := by
  intro l
  induction l with
  | nil => intro i v h; simp at h
  | cons a t ih =>
    intro i v h
    cases i with
    | zero => rfl
    | succ j =>
      show (a :: t.set j v).get? (j + 1) = some v
      rw [List.get?_cons_succ]
      exact ih j v (by simpa using h)

theorem length_filterMap_countP {α β : Type} (g : α → Option β) :
    ∀ l : List α, (l.filterMap g).length = l.countP (fun x => (g x).isSome) := by
  intro l
  induction l with
  | nil => rfl
  | cons a t ih =>
    rw [List.filterMap_cons, List.countP_cons]
    cases hg : g a <;> simp [hg, ih, Nat.add_comm]

theorem stepRec_isSome (name : String) (r : Except String (Bool × String)) :
    (stepRec name r).isSome = !stepPassed r := by
  rcases r with e | ⟨b, s⟩
  · rfl
  · cases b <;> rfl

theorem dictInsert_fresh (l : List (String × Bool)) (k : String) (v : Bool)
    (h : ∀ p ∈ l, ¬ p.1 = k) : dictInsert l k v = l ++ [(k, v)] := by
  have : l.any (fun p => p.1 == k) = false := by
    rw [List.any_eq_false]
    intro p hp
    simpa using h p hp
  simp [dictInsert, this]

/-- Characterization of the aggregation loop: starting from an accumulator
whose report does not yet mention any of the check names, running a list of
named checks (with pairwise distinct names) through `_run_analysis_step`
appends one report entry per check in order, adds one score point per
passing check, and appends the recommendation or warning of each failing or
raising check in order. -/
theorem runChecks_spec (a : Article) :
    ∀ (cs : List (String × (Article → Except String (Bool × String)))) (st : AState),
    (∀ nc ∈ cs, ∀ p ∈ st.points, ¬ p.1 = nc.1) →
    (cs.map Prod.fst).Nodup →
    runChecks a cs st =
      ⟨st.score + cs.countP (fun nc => stepPassed (nc.2 a)),
       st.points ++ cs.map (fun nc => (nc.1, stepPassed (nc.2 a))),
       st.recommendations ++ cs.filterMap (fun nc => stepRec nc.1 (nc.2 a)),
       st.warnings ++ cs.filterMap (fun nc => stepWarn a.url nc.1 (nc.2 a))⟩ := by
  intro cs
  induction cs with
  | nil =>
    intro st _ _
    cases st
    simp [runChecks]
  | cons nc cs ih =>
    intro st hfresh hnodup
    obtain ⟨n, c⟩ := nc
    have hfreshn : ∀ p ∈ st.points, ¬ p.1 = n :=
      fun p hp => hfresh (n, c) (List.mem_cons_self _ _) p hp
    have hnotin : n ∉ cs.map Prod.fst := by
      simpa using (List.nodup_cons.mp hnodup).1
    have hnodup' : (cs.map Prod.fst).Nodup := (List.nodup_cons.mp hnodup).2
    have hstep : runChecks a ((n, c) :: cs) st = runChecks a cs (run_analysis_step a st n c) := rfl
    rcases hca : c a with e | ⟨b, r⟩
    · -- the check raises
      have h1 : run_analysis_step a st n c =
          ⟨st.score, st.points ++ [(n, false)], st.recommendations ++ [failMsg n],
           st.warnings ++ [warnMsg n a.url e]⟩ := by
        simp [run_analysis_step, hca, add_to_report, dictInsert_fresh st.points n false hfreshn]
      have hfresh' : ∀ nc' ∈ cs, ∀ p ∈ (st.points ++ [(n, false)]), ¬ p.1 = nc'.1 := by
        intro nc' hnc' p hp
        rcases List.mem_append.mp hp with hp | hp
        · exact hfresh nc' (List.mem_cons_of_mem _ hnc') p hp
        · have : p = (n, false) := by simpa using hp
          subst this
          intro hcontra
          refine hnotin ?_
          have hn : n = nc'.1 := hcontra
          rw [hn]
          exact List.mem_map_of_mem Prod.fst hnc'
      rw [hstep, h1, ih _ hfresh' hnodup']
      simp [List.countP_cons, hca, stepPassed, stepRec, stepWarn, List.filterMap_cons]
    · -- the check returns (b, r)
      have h1 : run_analysis_step a st n c =
          ⟨st.score + (if b then 1 else 0), st.points ++ [(n, b)],
           (if b then st.recommendations else st.recommendations ++ [r]),
           st.warnings⟩ := by
        cases b <;>
          simp [run_analysis_step, hca, add_to_report, dictInsert_fresh st.points n _ hfreshn]
      have hfresh' : ∀ nc' ∈ cs, ∀ p ∈ (st.points ++ [(n, b)]), ¬ p.1 = nc'.1 := by
        intro nc' hnc' p hp
        rcases List.mem_append.mp hp with hp | hp
        · exact hfresh nc' (List.mem_cons_of_mem _ hnc') p hp
        · have : p = (n, b) := by simpa using hp
          subst this
          intro hcontra
          refine hnotin ?_
          have hn : n = nc'.1 := hcontra
          rw [hn]
          exact List.mem_map_of_mem Prod.fst hnc'
      rw [hstep, h1, ih _ hfresh' hnodup']
      cases b <;>
        simp [List.countP_cons, hca, stepPassed, stepRec, stepWarn, List.filterMap_cons,
              Nat.add_assoc, Nat.add_comm]

/-- C1: for every article, `analyze` produces a report with exactly the ten
fixed check names in the fixed evaluation order, a score equal to the number
of `true` report entries, and a recommendations sequence with one entry per
non-`true` report entry, aligned with the registry's evaluation order (the
recommendations are exactly the per-check recommendations of the failed or
raising checks, filtered in registry order). -/
theorem c1_ten_checks_score_recs (a : Article) :
    (analyze a).1.report.map Prod.fst = tenNames ∧
    (analyze a).1.report.length = 10 ∧
    (analyze a).1.score = (analyze a).1.report.countP (fun p => p.2) ∧
    (analyze a).1.recommendations.length = (analyze a).1.report.countP (fun p => !p.2) ∧
    (analyze a).1.recommendations = checkList.filterMap (fun nc => stepRec nc.1 (nc.2 a)) := by
  have hnodup : (checkList.map Prod.fst).Nodup := by decide
  have h := runChecks_spec a checkList initState (by intro nc _ p hp; simp [initState] at hp) hnodup
  have hres : (analyze a).1 =
      { url := a.url, title := a.title,
        score := checkList.countP (fun nc => stepPassed (nc.2 a)),
        report := checkList.map (fun nc => (nc.1, stepPassed (nc.2 a))),
        recommendations := checkList.filterMap (fun nc => stepRec nc.1 (nc.2 a)) } := by
    show ({ url := a.url, title := a.title, score := (runChecks a checkList initState).score,
            report := (runChecks a checkList initState).points,
            recommendations := (runChecks a checkList initState).recommendations } : AnalysisResult) = _
    rw [h]
    simp [initState]
  rw [hres]
  refine ⟨?_, ?_, ?_, ?_, rfl⟩
  · rfl
  · rfl
  · rw [List.countP_map]
    rfl
  · rw [length_filterMap_countP, List.countP_map]
    apply List.countP_congr
    intro nc _
    rw [stepRec_isSome]
    exact Iff.rfl

/-- C2: check isolation.  Replace any one of the ten registered checks by a
test double that raises (`fun _ => .error e`, keeping the registry name):
the aggregation loop still produces the complete ten-entry report in the
fixed order, records the raising check as failed (so it contributes nothing
to the score, which still counts the `true` entries), appends the synthetic
recommendation naming the failing check, and surfaces the cause only as a
warning to the caller — it never short-circuits the remaining checks. -/
theorem c2_check_isolation (a : Article) (i : Nat) (nm e : String)
    (hget : tenNames.get? i = some nm) :
    (runChecks a (checkList.set i (nm, fun _ => Except.error e)) initState).points.map Prod.fst
        = tenNames ∧
    (runChecks a (checkList.set i (nm, fun _ => Except.error e)) initState).points.length = 10 ∧
    (runChecks a (checkList.set i (nm, fun _ => Except.error e)) initState).points.get? i
        = some (nm, false) ∧
    failMsg nm ∈ (runChecks a (checkList.set i (nm, fun _ => Except.error e)) initState).recommendations ∧
    warnMsg nm a.url e ∈ (runChecks a (checkList.set i (nm, fun _ => Except.error e)) initState).warnings ∧
    (runChecks a (checkList.set i (nm, fun _ => Except.error e)) initState).score
        = (runChecks a (checkList.set i (nm, fun _ => Except.error e)) initState).points.countP
            (fun p => p.2) := by
  have hilen : i < tenNames.length := by
    by_contra hc
    rw [List.get?_eq_none.mpr (Nat.le_of_not_lt hc)] at hget
    cases hget
  have hclen : i < checkList.length := hilen
  have hmapfst : (checkList.set i (nm, fun _ => Except.error e)).map Prod.fst = tenNames := by
    rw [list_map_set]
    exact list_set_of_get? tenNames i nm hget
  have hnodup : ((checkList.set i (nm, fun _ => Except.error e)).map Prod.fst).Nodup := by
    rw [hmapfst]
    decide
  have h := runChecks_spec a (checkList.set i (nm, fun _ => Except.error e)) initState
    (by intro nc _ p hp; simp [initState] at hp) hnodup
  have hpts : (runChecks a (checkList.set i (nm, fun _ => Except.error e)) initState).points
      = (checkList.set i (nm, fun _ => Except.error e)).map
          (fun nc => (nc.1, stepPassed (nc.2 a))) := by
    rw [h]
    show initState.points ++ _ = _
    rw [show initState.points = [] from rfl, List.nil_append]
  have hrecs : (runChecks a (checkList.set i (nm, fun _ => Except.error e)) initState).recommendations
      = (checkList.set i (nm, fun _ => Except.error e)).filterMap
          (fun nc => stepRec nc.1 (nc.2 a)) := by
    rw [h]
    show initState.recommendations ++ _ = _
    rw [show initState.recommendations = [] from rfl, List.nil_append]
  have hwarn : (runChecks a (checkList.set i (nm, fun _ => Except.error e)) initState).warnings
      = (checkList.set i (nm, fun _ => Except.error e)).filterMap
          (fun nc => stepWarn a.url nc.1 (nc.2 a)) := by
    rw [h]
    show initState.warnings ++ _ = _
    rw [show initState.warnings = [] from rfl, List.nil_append]
  have hscore : (runChecks a (checkList.set i (nm, fun _ => Except.error e)) initState).score
      = (checkList.set i (nm, fun _ => Except.error e)).countP
          (fun nc => stepPassed (nc.2 a)) := by
    rw [h]
    show initState.score + _ = _
    rw [show initState.score = 0 from rfl, Nat.zero_add]
  have hget' : (checkList.set i (nm, fun _ => Except.error e)).get? i
      = some (nm, fun _ => Except.error e) :=
    list_get?_set checkList i _ hclen
  have hmem : ((nm, fun _ => Except.error e) :
      String × (Article → Except String (Bool × String)))
      ∈ checkList.set i (nm, fun _ => Except.error e) :=
    List.get?_mem hget'
  refine ⟨?_, ?_, ?_, ?_, ?_, ?_⟩
  · rw [hpts, List.map_map]
    exact hmapfst
  · rw [hpts, List.length_map]
    have : (checkList.set i (nm, fun _ => Except.error e)).length = checkList.length :=
      List.length_set _ _ _
    rw [this]
    rfl
  · rw [hpts, List.get?_map, hget']
    rfl
  · rw [hrecs]
    exact List.mem_filterMap.mpr ⟨_, hmem, rfl⟩
  · rw [hwarn]
    exact List.mem_filterMap.mpr ⟨_, hmem, rfl⟩
  · rw [hscore, hpts, List.countP_map]
    rfl

/-- Witness for the check-isolation theorem: the concrete article `artW`
with the `headings` check (index 2) replaced by a raising double. -/
theorem c2_check_isolation_witness :
    (runChecks artW (checkList.set 2 ("headings", fun _ => Except.error "boom")) initState).points.map Prod.fst
        = tenNames ∧
    (runChecks artW (checkList.set 2 ("headings", fun _ => Except.error "boom")) initState).points.length = 10 ∧
    (runChecks artW (checkList.set 2 ("headings", fun _ => Except.error "boom")) initState).points.get? 2
        = some ("headings", false) ∧
    failMsg "headings" ∈ (runChecks artW (checkList.set 2 ("headings", fun _ => Except.error "boom")) initState).recommendations ∧
    warnMsg "headings" artW.url "boom" ∈ (runChecks artW (checkList.set 2 ("headings", fun _ => Except.error "boom")) initState).warnings ∧
    (runChecks artW (checkList.set 2 ("headings", fun _ => Except.error "boom")) initState).score
        = (runChecks artW (checkList.set 2 ("headings", fun _ => Except.error "boom")) initState).points.countP
            (fun p => p.2) :=
  c2_check_isolation artW 2 "headings" "boom" (by decide)

/-- C3: the failing input.  A post record whose `content` key is absent
makes `Article.__init__` raise `KeyError`, which `Reporter.do_report`'s
per-post loop does not catch, so the whole batch aborts; by contrast a
null `content.rendered` is degraded to the empty string by `or ""` and
the batch proceeds. -/
theorem c3_missing_content_aborts_batch :
    do_report_rows [postMissingContent] = .error "KeyError: 'content'" ∧
    mkArticle postNullContent =
      .ok { id := 1, url := "u", title := "t", content_html := "",
            content_clean := "", meta_description := some "" } ∧
    (do_report_rows [postNullContent, postMissingContent]).isOk = false := by
  refine ⟨rfl, rfl, rfl⟩

/-- C4: the shared inflection helper.  At the failing inputs N = 2, 3, 4
the source literally returns the two Thai characters U+0E23 U+0E01 — the
UTF-8 bytes of the intended Slovak suffix `"á"` misdecoded as cp874 — and
not `"á"`; the other branches behave as specified. -/
theorem c4_inflection_mojibake :
    inflection 2 = "รก" ∧
    ¬ inflection 2 = "á" ∧ ¬ inflection 3 = "á" ∧ ¬ inflection 4 = "á" ∧
    inflection 1 = "o" ∧ inflection 0 = "" ∧ inflection 5 = "" ∧
    inflection (-1) = "" ∧ inflection 10 = "" := by
  refine ⟨rfl, ?_, ?_, ?_, rfl, rfl, rfl, rfl, rfl⟩ <;> decide

/-- C7: idempotence.  A full analysis run — constructing the `Article` from
the immutable raw post record and aggregating the ten checks from a fresh
accumulator, exactly as `Reporter.do_report` does per post — is a pure
function of the record: two runs that both complete yield identical
`AnalysisResult`s (same url, title, score, report and recommendations) and
identical final accumulators. -/
theorem c7_analysis_deterministic (post : Post) (r1 r2 : AnalysisResult × AState)
    (h1 : (mkArticle post).map analyze = .ok r1)
    (h2 : (mkArticle post).map analyze = .ok r2) :
    r1.1 = r2.1 ∧ r1.2 = r2.2 := by
  have h := h1.symm.trans h2
  injection h with h
  exact ⟨congrArg Prod.fst h, congrArg Prod.snd h⟩

/-- Witness for the idempotence theorem at the concrete post `postW`: both
hypotheses are discharged by evaluation of the full pipeline. -/
theorem c7_analysis_deterministic_witness :
    (analyze { id := 1, url := "u", title := "t", content_html := "",
               content_clean := "", meta_description := some "" }).1
      = (analyze { id := 1, url := "u", title := "t", content_html := "",
                   content_clean := "", meta_description := some "" }).1 :=
  (c7_analysis_deterministic postW _ _ rfl rfl).1

/-- C9: a post whose `yoast_head_json` (or its `description`) is absent gets
`meta_description = ""` through the chained `.get` defaults, so `meta_ok`
(with the default configuration 120-160) deterministically fails the
too-short branch stating the full minimum deficit of 120 (the suffix is
empty because `inflection 120 = ""`). -/
theorem c9_absent_meta_defaults_empty (post : Post) (a : Article)
    (hy : post.yoast_description = JStr.absent)
    (hok : mkArticle post = .ok a) :
    a.meta_description = some "" ∧
    analyze_meta_ok a 120 160 =
      .ok (false, "Meta popis je prikrátky, pridať aspoň 120 slov.") := by
  obtain ⟨oid, olink, otitle, cr, yd⟩ := post
  subst hy
  rcases oid with _ | i
  · cases hok
  rcases olink with _ | url
  · cases hok
  rcases otitle with _ | title
  · cases hok
  rcases cr with _ | _ | s
  · cases hok
  · rw [mkArticle] at hok
    injection hok with hok
    subst hok
    exact ⟨rfl, rfl⟩
  · rw [mkArticle] at hok
    injection hok with hok
    subst hok
    exact ⟨rfl, rfl⟩

/-- Witness for the absent-meta theorem at the concrete post `postNoYoast`. -/
theorem c9_absent_meta_defaults_empty_witness :
    ({ id := 1, url := "u", title := "t", content_html := "",
       content_clean := "", meta_description := some "" } : Article).meta_description
        = some "" ∧
    analyze_meta_ok { id := 1, url := "u", title := "t", content_html := "",
                      content_clean := "", meta_description := some "" } 120 160 =
      .ok (false, "Meta popis je prikrátky, pridať aspoň 120 slov.") :=
  c9_absent_meta_defaults_empty postNoYoast _ rfl rfl

/-- C10: when the content has no paragraph element left after removing the
toc container and the `script`/`style`/`noscript` subtrees,
`_get_first_paragraph` returns the empty string and `analyze_direct_answer`
passes vacuously: the empty intro contains none of the forbidden filler
phrases, so the check records `true` (with the unused recommendation
listing an empty phrase list). -/
theorem c10_no_paragraph_direct_answer (a : Article)
    (h : findFirstTagNodes "p"
          (stripTagsNodes ["script", "style", "noscript"]
            (removeToc (parseHtml a.content_html))) = none) :
    get_first_paragraph a.content_html = "" ∧
    analyze_direct_answer a = .ok (true, "Odstrániť nechcené frázy ([]).") := by
  have h1 : get_first_paragraph a.content_html = "" := by
    unfold get_first_paragraph
    simp only [h]
  refine ⟨h1, ?_⟩
  unfold analyze_direct_answer
  rw [h1]
  rfl

/-- Witness for the no-paragraph theorem at the concrete article `artNoP`
(content `"<div>x</div>"`). -/
theorem c10_no_paragraph_direct_answer_witness :
    get_first_paragraph artNoP.content_html = "" ∧
    analyze_direct_answer artNoP = .ok (true, "Odstrániť nechcené frázy ([]).") :=
  c10_no_paragraph_direct_answer artNoP rfl

/-- C5: `meta_ok` with the default configuration passes exactly when the
trimmed meta description length lies in [120, 160]; on failure exactly one
of the too-short / too-long branches applies and the recorded
recommendation is non-empty; the boundary lengths 119/120/160/161 behave
as claimed (119 fails with a deficit message, 120 and 160 pass, 161 fails
with an excess message). -/
theorem c5_meta_ok_range (a : Article) (s : String) (h : a.meta_description = some s) :
    (stepPassed (analyze_meta_ok a 120 160) = true ↔
      (120 ≤ (pyStrip s).length ∧ (pyStrip s).length ≤ 160)) ∧
    (stepPassed (analyze_meta_ok a 120 160) = false →
      (((pyStrip s).length < 120 ∧ ¬ 160 < (pyStrip s).length) ∨
       (¬ (pyStrip s).length < 120 ∧ 160 < (pyStrip s).length)) ∧
      ¬ getRecString (analyze_meta_ok a 120 160) = "") ∧
    analyze_meta_ok (mkMetaArticle (String.mk (List.replicate 119 'x'))) 120 160 =
      .ok (false, "Meta popis je prikrátky, pridať aspoň 1 slovo.") ∧
    stepPassed (analyze_meta_ok (mkMetaArticle (String.mk (List.replicate 120 'x'))) 120 160) = true ∧
    stepPassed (analyze_meta_ok (mkMetaArticle (String.mk (List.replicate 160 'x'))) 120 160) = true ∧
    analyze_meta_ok (mkMetaArticle (String.mk (List.replicate 161 'x'))) 120 160 =
      .ok (false, "Meta popis je pridlhý, ubrať aspoň 1 slovo.") := by
  have hL : analyze_meta_ok a 120 160 =
      .ok (decide (120 ≤ (pyStrip s).length ∧ (pyStrip s).length ≤ 160),
        if (pyStrip s).length < 120 then
          "Meta popis je prikrátky, pridať aspoň "
            ++ toString ((120 : Int) - ((pyStrip s).length : Int))
            ++ " slov" ++ inflection ((120 : Int) - ((pyStrip s).length : Int)) ++ "."
        else if 160 < (pyStrip s).length then
          "Meta popis je pridlhý, ubrať aspoň "
            ++ toString (((pyStrip s).length : Int) - (160 : Int))
            ++ " slov" ++ inflection (((pyStrip s).length : Int) - (160 : Int)) ++ "."
        else "") := by
    unfold analyze_meta_ok
    rw [h]
    rfl
  refine ⟨?_, ?_, by rfl, by rfl, by rfl, by rfl⟩
  · rw [hL]
    show (decide _ = true) ↔ _
    rw [decide_eq_true_eq]
  · rw [hL]
    intro hfalse
    have hfalse' : ¬ (120 ≤ (pyStrip s).length ∧ (pyStrip s).length ≤ 160) :=
      of_decide_eq_false hfalse
    refine ⟨by omega, ?_⟩
    show ¬ (if (pyStrip s).length < 120 then _ else _) = ""
    by_cases hshort : (pyStrip s).length < 120
    · rw [if_pos hshort]
      intro heq
      have hlen := congrArg String.length heq
      rw [String.length_append, String.length_append, String.length_append,
          String.length_append] at hlen
      rw [show ("" : String).length = 0 from rfl] at hlen
      have hpos : 0 < ("Meta popis je prikrátky, pridať aspoň " : String).length := by decide
      omega
    · rw [if_neg hshort, if_pos (by omega)]
      intro heq
      have hlen := congrArg String.length heq
      rw [String.length_append, String.length_append, String.length_append,
          String.length_append] at hlen
      rw [show ("" : String).length = 0 from rfl] at hlen
      have hpos : 0 < ("Meta popis je pridlhý, ubrať aspoň " : String).length := by decide
      omega

/-- Witness for the `meta_ok` range theorem at a concrete article whose
meta description is empty. -/
theorem c5_meta_ok_range_witness :
    ((stepPassed (analyze_meta_ok (mkMetaArticle "") 120 160) = true ↔
      (120 ≤ (pyStrip "").length ∧ (pyStrip "").length ≤ 160)) ∧
    (stepPassed (analyze_meta_ok (mkMetaArticle "") 120 160) = false →
      (((pyStrip "").length < 120 ∧ ¬ 160 < (pyStrip "").length) ∨
       (¬ (pyStrip "").length < 120 ∧ 160 < (pyStrip "").length)) ∧
      ¬ getRecString (analyze_meta_ok (mkMetaArticle "") 120 160) = "") ∧
    analyze_meta_ok (mkMetaArticle (String.mk (List.replicate 119 'x'))) 120 160 =
      .ok (false, "Meta popis je prikrátky, pridať aspoň 1 slovo.") ∧
    stepPassed (analyze_meta_ok (mkMetaArticle (String.mk (List.replicate 120 'x'))) 120 160) = true ∧
    stepPassed (analyze_meta_ok (mkMetaArticle (String.mk (List.replicate 160 'x'))) 120 160) = true ∧
    analyze_meta_ok (mkMetaArticle (String.mk (List.replicate 161 'x'))) 120 160 =
      .ok (false, "Meta popis je pridlhý, ubrať aspoň 1 slovo.")) :=
  c5_meta_ok_range (mkMetaArticle "") "" rfl

theorem listStartsWith_iff : ∀ (h n : List Char), listStartsWith h n = true ↔ ∃ r, h = n ++ r
  | h, [] => by
    simp [listStartsWith]
  | [], d :: ds => by
    simp [listStartsWith]
  | c :: cs, d :: ds => by
    rw [listStartsWith]
    simp only [Bool.and_eq_true, beq_iff_eq]
    constructor
    · rintro ⟨rfl, hrest⟩
      obtain ⟨r, rfl⟩ := (listStartsWith_iff cs ds).mp hrest
      exact ⟨r, rfl⟩
    · rintro ⟨r, hr⟩
      rw [List.cons_append] at hr
      injection hr with h1 h2
      exact ⟨h1, (listStartsWith_iff cs ds).mpr ⟨r, h2⟩⟩

theorem listStartsWith_refl (l : List Char) : listStartsWith l l = true :=
  (listStartsWith_iff l l).mpr ⟨[], (List.append_nil l).symm⟩

theorem listHasSub_iff (n : List Char) :
    ∀ h : List Char, listHasSub h n = true ↔ ∃ l r, h = l ++ (n ++ r) := by
  intro h
  induction h with
  | nil =>
    rw [listHasSub]
    by_cases hs : listStartsWith [] n = true
    · simp only [hs, if_true, true_iff]
      obtain ⟨r, hr⟩ := (listStartsWith_iff [] n).mp hs
      exact ⟨[], r, by simpa using hr⟩
    · rw [if_neg hs]
      show (false = true) ↔ _
      constructor
      · intro hcontra
        exact absurd hcontra (by decide)
      · rintro ⟨l, r, hl⟩
        rcases List.append_eq_nil.mp hl.symm with ⟨rfl, h2⟩
        rcases List.append_eq_nil.mp h2 with ⟨rfl, rfl⟩
        exact absurd (listStartsWith_refl []) hs
  | cons c cs ih =>
    rw [listHasSub]
    by_cases hs : listStartsWith (c :: cs) n = true
    · simp only [hs, if_true, true_iff]
      obtain ⟨r, hr⟩ := (listStartsWith_iff (c :: cs) n).mp hs
      exact ⟨[], r, by simpa using hr⟩
    · rw [if_neg hs]
      show listHasSub cs n = true ↔ _
      rw [ih]
      constructor
      · rintro ⟨l, r, rfl⟩
        exact ⟨c :: l, r, rfl⟩
      · rintro ⟨l, r, hl⟩
        rcases l with _ | ⟨x, l⟩
        · rw [List.nil_append] at hl
          exact absurd ((listStartsWith_iff (c :: cs) n).mpr ⟨r, hl⟩) hs
        · rw [List.cons_append] at hl
          injection hl with h1 h2
          exact ⟨l, r, h2⟩

theorem pyIn_self (s : String) : pyIn s s = true :=
  (listHasSub_iff s.toList s.toList).mpr ⟨[], [], by simp⟩

theorem pyIn_trans (a b c : String) (hab : pyIn a b = true) (hbc : pyIn b c = true) :
    pyIn a c = true := by
  rw [pyIn] at hab hbc ⊢
  obtain ⟨l1, r1, hb⟩ := (listHasSub_iff a.toList b.toList).mp hab
  obtain ⟨l2, r2, hc⟩ := (listHasSub_iff b.toList c.toList).mp hbc
  refine (listHasSub_iff a.toList c.toList).mpr ⟨l2 ++ l1, r1 ++ r2, ?_⟩
  rw [hc, hb]
  simp [List.append_assoc]

theorem bool_or_elim {a b : Bool} (h : (a || b) = true) : a = true ∨ b = true := by
  rcases a <;> rcases b <;> simp_all

theorem domains_no_common (d : String)
    (hgen : pyIn "pubmed.ncbi.nlm.nih.gov" d = true ∨ pyIn "pmc.ncbi.nlm.nih.gov" d = true ∨
            pyIn "examine.com" d = true)
    (t1 t2 : String) (ht1 : t1 ∈ source_domains) (ht2 : t2 ∈ source_domains)
    (hne : ¬ t1 = t2) (hd1 : pyIn d t1 = true) (hd2 : pyIn d t2 = true) : False := by
  have hm1 : t1 = "pubmed.ncbi.nlm.nih.gov" ∨ t1 = "pmc.ncbi.nlm.nih.gov" ∨
      t1 = "examine.com" := by
    simpa [source_domains] using ht1
  have hm2 : t2 = "pubmed.ncbi.nlm.nih.gov" ∨ t2 = "pmc.ncbi.nlm.nih.gov" ∨
      t2 = "examine.com" := by
    simpa [source_domains] using ht2
  rcases hgen with hg | hg | hg <;> rcases hm1 with rfl | rfl | rfl <;>
    rcases hm2 with rfl | rfl | rfl <;>
    first
      | exact hne rfl
      | exact absurd (pyIn_trans _ _ _ hg hd1) (by decide)
      | exact absurd (pyIn_trans _ _ _ hg hd2) (by decide)

/-- C6, counterexample: the claim's "exactly two fixed trusted domains"
is false of the code.  The decision of `analyze_sources` factors through
`sourcesCore` applied to the collected links and the clean text; no pair of
domain strings can reproduce that decision for all link lists, because the
source's three trusted domains are pairwise non-substrings of each other. -/
theorem c6_two_domains_counterexample :
    ¬ ∃ d1 d2 : String, ∀ (links : List String) (clean : String),
      sourcesCore links clean =
        (links.any (fun link => pyIn d1 link || pyIn d2 link) || sourceWordHit clean) := by
  rintro ⟨d1, d2, h⟩
  have hw : sourceWordHit "" = false := by decide
  have hp := h ["pubmed.ncbi.nlm.nih.gov"] ""
  rw [show sourcesCore ["pubmed.ncbi.nlm.nih.gov"] "" = true from by decide] at hp
  simp only [List.any_cons, List.any_nil, hw, Bool.or_false] at hp
  have hp' : pyIn d1 "pubmed.ncbi.nlm.nih.gov" = true ∨
      pyIn d2 "pubmed.ncbi.nlm.nih.gov" = true := bool_or_elim hp.symm
  have hq := h ["pmc.ncbi.nlm.nih.gov"] ""
  rw [show sourcesCore ["pmc.ncbi.nlm.nih.gov"] "" = true from by decide] at hq
  simp only [List.any_cons, List.any_nil, hw, Bool.or_false] at hq
  have hq' : pyIn d1 "pmc.ncbi.nlm.nih.gov" = true ∨
      pyIn d2 "pmc.ncbi.nlm.nih.gov" = true := bool_or_elim hq.symm
  have he := h ["examine.com"] ""
  rw [show sourcesCore ["examine.com"] "" = true from by decide] at he
  simp only [List.any_cons, List.any_nil, hw, Bool.or_false] at he
  have he' : pyIn d1 "examine.com" = true ∨ pyIn d2 "examine.com" = true :=
    bool_or_elim he.symm
  have hd1 := h [d1] ""
  simp only [sourcesCore, source_domains, List.any_cons, List.any_nil, hw,
    Bool.or_false, pyIn_self, Bool.true_or, Bool.or_true] at hd1
  have hgen1 : pyIn "pubmed.ncbi.nlm.nih.gov" d1 = true ∨
      pyIn "pmc.ncbi.nlm.nih.gov" d1 = true ∨ pyIn "examine.com" d1 = true := by
    rcases bool_or_elim hd1 with h' | h'
    · exact Or.inl h'
    · exact Or.inr (bool_or_elim h')
  have hd2 := h [d2] ""
  simp only [sourcesCore, source_domains, List.any_cons, List.any_nil, hw,
    Bool.or_false, pyIn_self, Bool.true_or, Bool.or_true] at hd2
  have hgen2 : pyIn "pubmed.ncbi.nlm.nih.gov" d2 = true ∨
      pyIn "pmc.ncbi.nlm.nih.gov" d2 = true ∨ pyIn "examine.com" d2 = true := by
    rcases bool_or_elim hd2 with h' | h'
    · exact Or.inl h'
    · exact Or.inr (bool_or_elim h')
  rcases hp' with h1 | h1 <;> rcases hq' with h2 | h2 <;> rcases he' with h3 | h3
  · exact domains_no_common d1 hgen1 _ _ (by decide) (by decide) (by decide) h1 h2
  · exact domains_no_common d1 hgen1 _ _ (by decide) (by decide) (by decide) h1 h2
  · exact domains_no_common d1 hgen1 _ _ (by decide) (by decide) (by decide) h1 h3
  · exact domains_no_common d2 hgen2 _ _ (by decide) (by decide) (by decide) h2 h3
  · exact domains_no_common d1 hgen1 _ _ (by decide) (by decide) (by decide) h2 h3
  · exact domains_no_common d2 hgen2 _ _ (by decide) (by decide) (by decide) h1 h3
  · exact domains_no_common d2 hgen2 _ _ (by decide) (by decide) (by decide) h1 h2
  · exact domains_no_common d2 hgen2 _ _ (by decide) (by decide) (by decide) h1 h2

/-- C6, amended: the `sources` check passes if and only if either some
anchor's link target contains one of the THREE fixed trusted domains of the
source, or the clean text contains one of the three fixed
sources/references/studies words, case-insensitively at word boundaries. -/
theorem c6_sources_three_domains (a : Article) :
    stepPassed (analyze_sources a) = true ↔
      ((∃ link ∈ collectLinksNodes (parseHtml a.content_html),
          ∃ d ∈ source_domains, pyIn d link = true) ∨
        sourceWordHit a.content_clean = true) := by
  show (sourcesCore (collectLinksNodes (parseHtml a.content_html)) a.content_clean = true) ↔ _
  rw [sourcesCore, Bool.or_eq_true, List.any_eq_true]
  constructor
  · rintro (⟨link, hlink, hd⟩ | hword)
    · obtain ⟨d, hdmem, hdin⟩ := List.any_eq_true.mp hd
      exact Or.inl ⟨link, hlink, d, hdmem, hdin⟩
    · exact Or.inr hword
  · rintro (⟨link, hlink, d, hdmem, hdin⟩ | hword)
    · exact Or.inl ⟨link, hlink, List.any_eq_true.mpr ⟨d, hdmem, hdin⟩⟩
    · exact Or.inr hword

mutual
theorem countTagOpt_strip (t : String) (bad : List String) (ht : bad.contains t = true) :
    ∀ n : HNode, countTagOpt t (stripTagsNode bad n) = 0
  | .text s => by
    rfl
  | .elem tg ats ks => by
    rw [stripTagsNode]
    by_cases hb : bad.contains tg = true
    · rw [if_pos hb]
      rfl
    · rw [if_neg hb]
      show countTagNode t (.elem tg ats (stripTagsNodes bad ks)) = 0
      rw [countTagNode]
      have htag : (tg == t) = false := by
        by_cases htt : tg = t
        · subst htt
          exact absurd ht hb
        · simp [htt]
      rw [htag, if_neg (by simp), countTagNodes_strip t bad ht ks]
theorem countTagNodes_strip (t : String) (bad : List String) (ht : bad.contains t = true) :
    ∀ ns : HNodes, countTagNodes t (stripTagsNodes bad ns) = 0
  | .nil => by rfl
  | .cons n ns => by
    rw [stripTagsNodes]
    have h1 := countTagOpt_strip t bad ht n
    cases hsn : stripTagsNode bad n with
    | none => exact countTagNodes_strip t bad ht ns
    | some n' =>
      rw [hsn] at h1
      show countTagNode t n' + countTagNodes t (stripTagsNodes bad ns) = 0
      rw [countTagNodes_strip t bad ht ns, show countTagNode t n' = 0 from h1]
end

mutual
theorem tocCount_stripNode_le (bad : List String) :
    ∀ n : HNode, tocCountOpt (stripTagsNode bad n) ≤ tocCountNode n
  | .text s => by
    rw [stripTagsNode]
    exact Nat.le_refl _
  | .elem tg ats ks => by
    rw [stripTagsNode]
    by_cases hb : bad.contains tg = true
    · rw [if_pos hb]
      exact Nat.zero_le _
    · rw [if_neg hb]
      show tocCountNode (.elem tg ats (stripTagsNodes bad ks)) ≤ tocCountNode (.elem tg ats ks)
      rw [tocCountNode, tocCountNode]
      exact Nat.add_le_add_left (tocCount_stripNodes_le bad ks) _
theorem tocCount_stripNodes_le (bad : List String) :
    ∀ ns : HNodes, tocCountNodes (stripTagsNodes bad ns) ≤ tocCountNodes ns
  | .nil => by
    exact Nat.le_refl _
  | .cons n ns => by
    rw [stripTagsNodes]
    have h1 := tocCount_stripNode_le bad n
    have h2 := tocCount_stripNodes_le bad ns
    cases hsn : stripTagsNode bad n with
    | none =>
      refine h2.trans ?_
      rw [tocCountNodes]
      exact Nat.le_add_left _ _
    | some n' =>
      rw [hsn] at h1
      show tocCountNode n' + tocCountNodes (stripTagsNodes bad ns) ≤ tocCountNodes (.cons n ns)
      rw [tocCountNodes]
      exact Nat.add_le_add h1 h2
end

mutual
theorem removeTocNode_spec : ∀ n : HNode,
    ((removeTocNode n).2 = false → (removeTocNode n).1 = some n ∧ tocCountNode n = 0) ∧
    ((removeTocNode n).2 = true → tocCountOpt (removeTocNode n).1 + 1 ≤ tocCountNode n)
  | .text s => by
    rw [removeTocNode]
    exact ⟨fun _ => ⟨rfl, rfl⟩, fun h => Bool.noConfusion h⟩
  | .elem tg ats ks => by
    by_cases htoc : isTocDiv (.elem tg ats ks) = true
    · have hdef : removeTocNode (.elem tg ats ks) = (none, true) := by
        rw [removeTocNode, if_pos htoc]
      rw [hdef]
      refine ⟨fun h => Bool.noConfusion h, fun _ => ?_⟩
      show 0 + 1 ≤ tocCountNode (.elem tg ats ks)
      rw [tocCountNode, if_pos htoc]
      omega
    · have hdef : removeTocNode (.elem tg ats ks)
          = (some (.elem tg ats (removeTocNodes ks).1), (removeTocNodes ks).2) := by
        rw [removeTocNode, if_neg htoc]
      rw [hdef]
      have hspec := removeTocNodes_spec ks
      refine ⟨fun h => ?_, fun h => ?_⟩
      · obtain ⟨h1, h2⟩ := hspec.1 h
        refine ⟨by rw [h1], ?_⟩
        rw [tocCountNode, if_neg htoc, h2]
      · have h3 := hspec.2 h
        show tocCountNode (.elem tg ats (removeTocNodes ks).1) + 1 ≤ tocCountNode (.elem tg ats ks)
        rw [tocCountNode, tocCountNode, if_neg htoc,
            if_neg (show ¬ isTocDiv (.elem tg ats (removeTocNodes ks).1) = true from htoc)]
        omega
theorem removeTocNodes_spec : ∀ ns : HNodes,
    ((removeTocNodes ns).2 = false → (removeTocNodes ns).1 = ns ∧ tocCountNodes ns = 0) ∧
    ((removeTocNodes ns).2 = true → tocCountNodes (removeTocNodes ns).1 + 1 ≤ tocCountNodes ns)
  | .nil => by
    rw [removeTocNodes]
    exact ⟨fun _ => ⟨rfl, rfl⟩, fun h => Bool.noConfusion h⟩
  | .cons n ns => by
    have hn := removeTocNode_spec n
    have hns := removeTocNodes_spec ns
    rcases hrn : removeTocNode n with ⟨optn, fl⟩
    rw [removeTocNodes, hrn]
    rcases optn with _ | n'
    · cases fl with
      | false =>
        obtain ⟨h1, -⟩ := hn.1 (by rw [hrn])
        rw [hrn] at h1
        exact Option.noConfusion h1
      | true =>
        have h2 := hn.2 (by rw [hrn])
        rw [hrn] at h2
        refine ⟨fun h => Bool.noConfusion h, fun _ => ?_⟩
        show tocCountNodes ns + 1 ≤ tocCountNodes (.cons n ns)
        rw [tocCountNodes]
        have h1 : (1 : Nat) ≤ tocCountNode n := by simpa [tocCountOpt] using h2
        omega
    · cases fl with
      | false =>
        have h2 := hn.1 (by rw [hrn])
        rw [hrn] at h2
        obtain ⟨h1, h0⟩ := h2
        have hn'n : n' = n := Option.some.inj h1
        subst hn'n
        refine ⟨fun h => ?_, fun h => ?_⟩
        · obtain ⟨h3, h4⟩ := hns.1 h
          refine ⟨?_, ?_⟩
          · show HNodes.cons n' (removeTocNodes ns).1 = .cons n' ns
            rw [h3]
          · show tocCountNodes (.cons n' ns) = 0
            rw [tocCountNodes, h0, h4]
        · have h3 := hns.2 h
          show tocCountNodes (.cons n' (removeTocNodes ns).1) + 1 ≤ tocCountNodes (.cons n' ns)
          rw [tocCountNodes, tocCountNodes, h0]
          omega
      | true =>
        have h2 := hn.2 (by rw [hrn])
        rw [hrn] at h2
        refine ⟨fun h => Bool.noConfusion h, fun _ => ?_⟩
        show tocCountNodes (.cons n' ns) + 1 ≤ tocCountNodes (.cons n ns)
        rw [tocCountNodes, tocCountNodes]
        have h4 : tocCountNode n' + 1 ≤ tocCountNode n := by simpa [tocCountOpt] using h2
        omega
end

theorem removeToc_unique (ns : HNodes) (h : tocCountNodes ns ≤ 1) :
    tocCountNodes (removeToc ns) = 0 := by
  rw [removeToc]
  cases hfl : (removeTocNodes ns).2 with
  | false =>
    obtain ⟨h1, h2⟩ := (removeTocNodes_spec ns).1 hfl
    rw [h1, h2]
  | true =>
    have := (removeTocNodes_spec ns).2 hfl
    omega

/-- C8: the normalizer's outputs are pure functions of the content HTML
alone; the tree both `_get_clean_content_html` and `_get_first_paragraph`
extract their text from contains no `script`, `style` or `noscript`
element and — when the document has at most one table-of-contents container,
the well-formed case the removal targets — no toc container either, so the
extracted text can never contain material from those subtrees; in
particular normalizing `"<script>x</script><p>Hi</p>"` yields clean text
(and first paragraph) `"Hi"`, with the script content gone. -/
theorem c8_normalizer_strips_forbidden (ns : HNodes) (h : tocCountNodes ns ≤ 1) :
    (∀ a b : Article, a.content_html = b.content_html →
      get_clean_content_html a.content_html = get_clean_content_html b.content_html ∧
      get_first_paragraph a.content_html = get_first_paragraph b.content_html) ∧
    countTagNodes "script" (stripTagsNodes ["script", "style", "noscript"] ns) = 0 ∧
    countTagNodes "style" (stripTagsNodes ["script", "style", "noscript"] ns) = 0 ∧
    countTagNodes "noscript" (stripTagsNodes ["script", "style", "noscript"] ns) = 0 ∧
    tocCountNodes (stripTagsNodes ["script", "style", "noscript"] (removeToc ns)) = 0 ∧
    get_clean_content_html "<script>x</script><p>Hi</p>" = "Hi" ∧
    get_first_paragraph "<script>x</script><p>Hi</p>" = "Hi" := by
  refine ⟨?_, ?_, ?_, ?_, ?_, by rfl, by rfl⟩
  · intro a b hab
    rw [hab]
    exact ⟨rfl, rfl⟩
  · exact countTagNodes_strip "script" _ (by decide) ns
  · exact countTagNodes_strip "style" _ (by decide) ns
  · exact countTagNodes_strip "noscript" _ (by decide) ns
  · have h1 := tocCount_stripNodes_le ["script", "style", "noscript"] (removeToc ns)
    have h2 := removeToc_unique ns h
    omega

/-- Witness for the normalizer theorem at the concrete tree `tocNs`
(one toc container followed by a paragraph). -/
theorem c8_normalizer_strips_forbidden_witness :
    tocCountNodes tocNs ≤ 1 ∧
    tocCountNodes (stripTagsNodes ["script", "style", "noscript"] (removeToc tocNs)) = 0 :=
  ⟨by decide, (c8_normalizer_strips_forbidden tocNs (by decide)).2.2.2.2.1⟩
